import Mathlib

/-!
Verification of the z/OS reverse-engineering engine (repository acrajesh/reverse_asm).

This file is a shallow embedding, in Lean 4, of the parts of the Python source
that the specification claims talk about:

  * src/zos_reverse/disassembler.py  (NativeDecoder, Disassembler)
  * src/zos_reverse/cfg_builder.py   (CFGBuilder, ProcedureDetector)
  * src/zos_reverse/classifier.py    (RegionClassifier)
  * src/zos_reverse/ingestion.py     (BinaryIngestor)
  * src/zos_reverse/pipeline.py      (ReverseEngineeringPipeline.process_file)

Bytes are modelled as natural numbers (each < 256 where it matters), Python
ints as Nat or Int, Python floats (only ever produced by dividing two
nonnegative ints) as Rat, Python lists as List, Python dicts keyed by
addresses as association lists with the source construction order, and Python
exceptions as an Except value.  Divisions that appear in the claims are exact
at every concrete input used below, so the rational model agrees with IEEE
double division there.
-/

namespace ZosReverse

/-- Confidence levels, ir.py class Confidence. -/
inductive Confidence where
  | HIGH
  | MEDIUM
  | LOW
deriving DecidableEq, Repr

/-- Instruction formats, ir.py class InstructionFormat (only the members the
decoder can produce are listed; the others are never constructed). -/
inductive InstructionFormat where
  | RR
  | RX
  | RS
  | SI
  | SS
  | RIL
  | UNKNOWN
deriving DecidableEq, Repr

/-- Single decoded instruction, ir.py class Instruction.  The mutable fields
synthetic_label and the edge annotation are only written by CFG-builder code
that (as proved below) is never reached, so they are omitted here. -/
structure Instruction where
  address : Nat
  raw_bytes : List Nat
  hex_bytes : String
  mnemonic : String
  operands : List String
  format : InstructionFormat
  is_branch : Bool
  is_call : Bool
  is_return : Bool
  branch_target : Option Int
  confidence : Confidence
deriving DecidableEq, Repr

/-- Uppercase hexadecimal digit, used to model Python format specifiers
such as f-string 02X and bytes.hex().upper(). -/
def hexDigit (n : Nat) : Char :=
  if n < 10 then Char.ofNat (48 + n) else Char.ofNat (55 + n)

/-- Fixed-width uppercase hexadecimal rendering of a natural number, the
model of Python format strings 02X and 08X (all values rendered in this
development fit the width). -/
def hexFixed (width n : Nat) : String :=
  String.mk (((List.range width).reverse).map (fun i => hexDigit (n / 16 ^ i % 16)))

/-- Model of Python bytes.hex().upper(): two uppercase hex digits per byte. -/
def hexOfBytes (bs : List Nat) : String :=
  String.join (bs.map (fun b => hexFixed 2 b))

/-- A single-quote character, built numerically so the literal never appears
in this file; used for the decoder operand renderings of the source
f-strings around immediate values. -/
def sq : String := String.mk [Char.ofNat 39]

namespace NativeDecoder

/-- disassembler.py NativeDecoder.OPCODE_LENGTHS, transcribed entry by entry.
Note which keys the source dict does NOT contain: 0x52, 0x53, 0x93, 0xD8 and
0xF4-0xF7 are absent (they fall to the default length 2), while 0xE5 is
present with length 4. -/
def OPCODE_LENGTHS : List (Nat × Nat) :=
  [ (0x00, 2), (0x01, 2), (0x02, 2), (0x03, 2), (0x04, 2), (0x05, 2), (0x06, 2), (0x07, 2),
    (0x08, 2), (0x09, 2), (0x0A, 2), (0x0B, 2), (0x0C, 2), (0x0D, 2), (0x0E, 2), (0x0F, 2),
    (0x10, 2), (0x11, 2), (0x12, 2), (0x13, 2), (0x14, 2), (0x15, 2), (0x16, 2), (0x17, 2),
    (0x18, 2), (0x19, 2), (0x1A, 2), (0x1B, 2), (0x1C, 2), (0x1D, 2), (0x1E, 2), (0x1F, 2),
    (0x40, 4), (0x41, 4), (0x42, 4), (0x43, 4), (0x44, 4), (0x45, 4), (0x46, 4), (0x47, 4),
    (0x48, 4), (0x49, 4), (0x4A, 4), (0x4B, 4), (0x4C, 4), (0x4D, 4), (0x4E, 4), (0x4F, 4),
    (0x50, 4), (0x51, 4), (0x54, 4), (0x55, 4), (0x56, 4), (0x57, 4), (0x58, 4), (0x59, 4),
    (0x5A, 4), (0x5B, 4), (0x5C, 4), (0x5D, 4), (0x5E, 4), (0x5F, 4),
    (0x86, 4), (0x87, 4), (0x88, 4), (0x89, 4), (0x8A, 4), (0x8B, 4), (0x8C, 4), (0x8D, 4),
    (0x8E, 4), (0x8F, 4), (0x90, 4), (0x91, 4), (0x92, 4), (0x94, 4), (0x95, 4), (0x96, 4),
    (0x97, 4), (0x98, 4), (0x99, 4), (0x9A, 4), (0x9B, 4),
    (0xD0, 6), (0xD1, 6), (0xD2, 6), (0xD3, 6), (0xD4, 6), (0xD5, 6), (0xD6, 6), (0xD7, 6),
    (0xD9, 6), (0xDA, 6), (0xDB, 6), (0xDC, 6), (0xDD, 6), (0xDE, 6), (0xDF, 6),
    (0xF0, 6), (0xF1, 6), (0xF2, 6), (0xF3, 6), (0xF8, 6), (0xF9, 6), (0xFA, 6), (0xFB, 6),
    (0xFC, 6), (0xFD, 6),
    (0xA5, 4), (0xA7, 4), (0xB2, 4), (0xB3, 4), (0xB9, 4),
    (0xC0, 6), (0xC2, 6), (0xC4, 6), (0xC6, 6), (0xC8, 6),
    (0xE3, 6), (0xE5, 4), (0xEB, 6), (0xEC, 6), (0xED, 6) ]

/-- disassembler.py NativeDecoder.MNEMONICS, transcribed entry by entry. -/
def MNEMONICS : List (Nat × String) :=
  [ (0x05, "BALR"), (0x0D, "BASR"), (0x07, "BCR"), (0x47, "BC"),
    (0x18, "LR"), (0x58, "L"), (0x50, "ST"), (0x90, "STM"), (0x98, "LM"),
    (0x41, "LA"), (0x1A, "AR"), (0x5A, "A"), (0x1B, "SR"), (0x5B, "S"),
    (0x12, "LTR"), (0x55, "CL"), (0x95, "CLI"), (0x15, "CLR"),
    (0x19, "CR"), (0x59, "C"), (0x89, "SLL"), (0x88, "SRL"),
    (0x13, "LCR"), (0x11, "LNR"), (0x10, "LPR"), (0x14, "NR"),
    (0x16, "OR"), (0x17, "XR"), (0x54, "N"), (0x56, "O"), (0x57, "X"),
    (0x96, "OI"), (0x94, "NI"), (0x97, "XI"), (0x92, "MVI"),
    (0x43, "IC"), (0x42, "STC"), (0x44, "EX"), (0x45, "BAL"),
    (0x46, "BCT"), (0x8E, "SRDA"), (0x8C, "SRDL"), (0x8D, "SLDA"),
    (0x86, "BXH"), (0x87, "BXLE"), (0xD2, "MVC"), (0xD5, "CLC"),
    (0xDC, "TR"), (0xDD, "TRT"), (0xD1, "MVN"), (0xD3, "MVZ"),
    (0xF1, "MVO"), (0xF2, "PACK"), (0xF3, "UNPK"), (0xD7, "XC"),
    (0xD6, "OC"), (0xD4, "NC"), (0xD9, "MVCK"), (0xDA, "MVCP"),
    (0xDB, "MVCS"), (0xDE, "ED"), (0xDF, "EDMK"), (0xFA, "AP"),
    (0xFB, "SP"), (0xF8, "ZAP"), (0xF9, "CP"), (0xFC, "MP"), (0xFD, "DP") ]

/-- disassembler.py NativeDecoder.get_instruction_length: three explicit
opcode-set checks, then the table lookup with default 2. -/
def get_instruction_length (opcode : Nat) : Nat :=
  if opcode = 0xB2 ∨ opcode = 0xB3 ∨ opcode = 0xB9 then 4
  else if opcode = 0xE3 ∨ opcode = 0xEB ∨ opcode = 0xEC ∨ opcode = 0xED then 6
  else if opcode = 0xC0 ∨ opcode = 0xC2 ∨ opcode = 0xC4 ∨ opcode = 0xC6 ∨ opcode = 0xC8 then 6
  else ((OPCODE_LENGTHS.lookup opcode).getD 2)

/-- Big-endian unsigned 32-bit value of four bytes, Python
struct.unpack of the pattern greater-than I applied to inst_bytes[2:6]. -/
def be32 (b0 b1 b2 b3 : Nat) : Nat :=
  ((b0 * 256 + b1) * 256 + b2) * 256 + b3

/-- Signed reading of a 32-bit big-endian value, Python struct.unpack of the
signed pattern greater-than i. -/
def be32s (b0 b1 b2 b3 : Nat) : Int :=
  let u := be32 b0 b1 b2 b3
  if u < 2 ^ 31 then (u : Int) else (u : Int) - 2 ^ 32

/-- disassembler.py NativeDecoder._decode_instruction_details: mnemonic,
operand strings and format tag from the instruction bytes.  The byte
accesses use getD 0; every call site passes a list whose length is exactly
the value branched on, so the defaults are never consulted. -/
def decode_instruction_details (inst_bytes : List Nat) :
    String × List String × InstructionFormat :=
  let opcode := inst_bytes.getD 0 0
  let length := inst_bytes.length
  let mnemonic := (MNEMONICS.lookup opcode).getD "UNKNOWN"
  if length = 2 then
    -- RR format: opcode(1) R1R2(1)
    let r1 := inst_bytes.getD 1 0 / 16 % 16
    let r2 := inst_bytes.getD 1 0 % 16
    (mnemonic, [toString r1, toString r2], InstructionFormat.RR)
  else if length = 4 then
    if 0x90 ≤ opcode ∧ opcode ≤ 0x9B then
      -- SI format: opcode(1) I2(1) B1D1(2)
      let i2 := inst_bytes.getD 1 0
      let b1 := inst_bytes.getD 2 0 / 16 % 16
      let d1 := (inst_bytes.getD 2 0 % 16) * 256 + inst_bytes.getD 3 0
      (mnemonic, ["X" ++ sq ++ hexFixed 2 i2 ++ sq, toString d1 ++ "(" ++ toString b1 ++ ")"],
        InstructionFormat.SI)
    else if opcode = 0x88 ∨ opcode = 0x89 ∨ opcode = 0x8A ∨ opcode = 0x8B ∨
        opcode = 0x8C ∨ opcode = 0x8D ∨ opcode = 0x8E ∨ opcode = 0x8F then
      -- RS format: opcode(1) R1R3(1) B2D2(2)
      let r1 := inst_bytes.getD 1 0 / 16 % 16
      let r3 := inst_bytes.getD 1 0 % 16
      let b2 := inst_bytes.getD 2 0 / 16 % 16
      let d2 := (inst_bytes.getD 2 0 % 16) * 256 + inst_bytes.getD 3 0
      (mnemonic, [toString r1, toString r3, toString d2 ++ "(" ++ toString b2 ++ ")"],
        InstructionFormat.RS)
    else
      -- RX format: opcode(1) R1X2(1) B2D2(2)
      let r1 := inst_bytes.getD 1 0 / 16 % 16
      let x2 := inst_bytes.getD 1 0 % 16
      let b2 := inst_bytes.getD 2 0 / 16 % 16
      let d2 := (inst_bytes.getD 2 0 % 16) * 256 + inst_bytes.getD 3 0
      if x2 ≠ 0 then
        (mnemonic, [toString r1, toString d2 ++ "(" ++ toString x2 ++ "," ++ toString b2 ++ ")"],
          InstructionFormat.RX)
      else
        (mnemonic, [toString r1, toString d2 ++ "(" ++ toString b2 ++ ")"],
          InstructionFormat.RX)
  else if length = 6 then
    if 0xD0 ≤ opcode ∧ opcode ≤ 0xDF then
      -- SS format: opcode(1) L(1) B1D1(2) B2D2(2)
      let ll := inst_bytes.getD 1 0
      let b1 := inst_bytes.getD 2 0 / 16 % 16
      let d1 := (inst_bytes.getD 2 0 % 16) * 256 + inst_bytes.getD 3 0
      let b2 := inst_bytes.getD 4 0 / 16 % 16
      let d2 := (inst_bytes.getD 4 0 % 16) * 256 + inst_bytes.getD 5 0
      (mnemonic,
        [toString d1 ++ "(" ++ toString ll ++ "," ++ toString b1 ++ ")",
         toString d2 ++ "(" ++ toString b2 ++ ")"],
        InstructionFormat.SS)
    else if opcode = 0xC0 ∨ opcode = 0xC2 ∨ opcode = 0xC4 ∨ opcode = 0xC6 ∨ opcode = 0xC8 then
      -- RIL format: opcode(2) R1(1) I2(4)
      let r1 := inst_bytes.getD 1 0 / 16 % 16
      let i2 := be32 (inst_bytes.getD 2 0) (inst_bytes.getD 3 0)
        (inst_bytes.getD 4 0) (inst_bytes.getD 5 0)
      (mnemonic, [toString r1, "X" ++ sq ++ hexFixed 8 i2 ++ sq], InstructionFormat.RIL)
    else
      (mnemonic, [], InstructionFormat.UNKNOWN)
  else
    (mnemonic, [], InstructionFormat.UNKNOWN)

/-- The mnemonic set making is_branch true (disassembler.py line 101). -/
def branch_mnemonics : List String :=
  ["BC", "BCR", "BAL", "BALR", "BASR", "BAS", "BXH", "BXLE", "BCT", "BCTR"]

/-- The mnemonic set making is_call true (disassembler.py line 102). -/
def call_mnemonics : List String := ["BALR", "BASR", "BAL", "BAS"]

/-- The is_return test of disassembler.py lines 103-104: BCR whose first
operand is the string 15 (the second operand is NOT inspected), or BR whose
first operand is 14; an empty operand list is falsy in Python and yields
false. -/
def pyIsReturn (mnemonic : String) (operands : List String) : Bool :=
  match operands with
  | [] => false
  | o :: _ => (mnemonic == "BCR" && o == "15") || (mnemonic == "BR" && o == "14")

/-- disassembler.py NativeDecoder._calculate_branch_target. -/
def calculate_branch_target (inst_bytes : List Nat) (address : Nat)
    (fmt : InstructionFormat) : Option Int :=
  if fmt = InstructionFormat.RX ∧ 4 ≤ inst_bytes.length then
    let b2 := inst_bytes.getD 2 0 / 16 % 16
    let d2 := (inst_bytes.getD 2 0 % 16) * 256 + inst_bytes.getD 3 0
    if b2 = 0 then some (d2 : Int) else none
  else if fmt = InstructionFormat.RIL ∧ 6 ≤ inst_bytes.length then
    let off := be32s (inst_bytes.getD 2 0) (inst_bytes.getD 3 0)
      (inst_bytes.getD 4 0) (inst_bytes.getD 5 0)
    some ((address : Int) + off * 2)
  else
    none

/-- The instruction record decode_instruction builds once the bounds checks
have passed (disassembler.py lines 94-123). -/
def decoded_at (data : List Nat) (offset address opcode : Nat) : Instruction :=
  let length := get_instruction_length opcode
  let inst_bytes := (data.drop offset).take length
  let det := decode_instruction_details inst_bytes
  let mnemonic := det.1
  let operands := det.2.1
  let fmt := det.2.2
  let isBranch := branch_mnemonics.contains mnemonic
  let isCall := call_mnemonics.contains mnemonic
  let isRet := pyIsReturn mnemonic operands
  let target := if isBranch ∧ 4 ≤ length then
      calculate_branch_target inst_bytes address fmt
    else none
  { address := address
    raw_bytes := inst_bytes
    hex_bytes := hexOfBytes inst_bytes
    mnemonic := mnemonic
    operands := operands
    format := fmt
    is_branch := isBranch
    is_call := isCall
    is_return := isRet
    branch_target := target
    confidence := if mnemonic ≠ "UNKNOWN" then Confidence.HIGH else Confidence.LOW }

/-- disassembler.py NativeDecoder.decode_instruction.  The initial bounds
check offset >= len(data) is the none case of the indexed access; the second
check returns None when fewer bytes remain than the instruction needs. -/
def decode_instruction (data : List Nat) (offset address : Nat) : Option Instruction :=
  match data.get? offset with
  | none => none
  | some opcode =>
    if data.length < offset + get_instruction_length opcode then
      none
    else
      some (decoded_at data offset address opcode)

end NativeDecoder

/-- Basic block types, ir.py class BlockType. -/
inductive BlockType where
  | ENTRY
  | NORMAL
  | CALL
  | RETURN
  | BRANCH
  | UNKNOWN
deriving DecidableEq, Repr

/-- Basic block record, ir.py class BasicBlock.  As proved below the CFG
builder raises before ever storing a block, so values of this type are never
produced by the embedded pipeline; the record is kept for the shape of the
ControlFlowGraph. -/
structure BasicBlock where
  id : String
  start_address : Nat
  end_address : Nat
  instructions : List Instruction := []
  block_type : BlockType := BlockType.NORMAL
  predecessors : List String := []
  successors : List String := []
  fall_through : Option String := none
  branch_targets : List String := []
  confidence : Confidence := Confidence.HIGH
deriving DecidableEq, Repr

/-- Inferred procedure, ir.py class Procedure (confidence is stored by the
detector as a float literal; modelled as Rat). -/
structure Procedure where
  id : String
  name : String
  entry_address : Nat
  exit_addresses : List Nat := []
  basic_blocks : List String := []
  calls_to : List String := []
  called_by : List String := []
  confidence : Rat := 0
  detection_method : String := "unknown"
deriving DecidableEq, Repr

/-- Control flow graph, ir.py class ControlFlowGraph. -/
structure ControlFlowGraph where
  module_name : Option String
  entry_points : List Nat
  basic_blocks : List (String × BasicBlock) := []
  procedures : List (String × Procedure) := []
  call_graph : List (String × List String) := []
  unresolved_branches : List Nat := []
  data_regions : List (Nat × Nat) := []
deriving DecidableEq, Repr

/-- Module metadata, ir.py class ModuleMetadata.  csect_info entries keep the
(offset, size) pair parsed by the ingestor; attributes is the string-keyed
dict. -/
structure ModuleMetadata where
  name : Option String := none
  format_type : String := "unknown"
  entry_point : Option Nat := none
  external_symbols : List String := []
  csect_info : List (Nat × Nat) := []
  amode : Option Nat := none
  rmode : Option String := none
  attributes : List (String × String) := []
deriving DecidableEq, Repr

/-- The statistics dict produced by Disassembler._generate_statistics, with
the two keys process_file would add afterwards (both default to absent).
decode_rate models the float division by an exact rational. -/
structure Statistics where
  instruction_count : Nat
  decoded_bytes : Nat
  unknown_bytes : Nat
  decode_rate : Rat
  branch_count : Nat
  call_count : Nat
  return_count : Nat
  top_mnemonics : List (String × Nat)
  processing_time : Option Rat := none
  file_path : Option String := none
deriving DecidableEq, Repr

/-- Complete result, ir.py class DisassemblyResult. -/
structure DisassemblyResult where
  metadata : ModuleMetadata
  instructions : List Instruction
  cfg : ControlFlowGraph
  unknown_regions : List (Nat × Nat × List Nat)
  warnings : List String := []
  statistics : Statistics
deriving DecidableEq, Repr

namespace Disassembler

/-- Update the mnemonic frequency dict: Python dict insertion keeps the
first-occurrence position of a key and increments in place. -/
def bumpCount (counts : List (String × Nat)) (m : String) : List (String × Nat) :=
  if counts.any (fun p => p.1 == m) then
    counts.map (fun p => if p.1 == m then (p.1, p.2 + 1) else p)
  else
    counts ++ [(m, 1)]

/-- Stable insertion for a descending sort by count: an element goes after
every element with a count at least as large, which is exactly the order of
Python sorted with key count and reverse true (a stable sort). -/
def insertDesc (x : String × Nat) : List (String × Nat) → List (String × Nat)
  | [] => [x]
  | y :: ys => if y.2 < x.2 then x :: y :: ys else y :: insertDesc x ys

/-- Stable descending sort by count (insertion sort, processing the
first-occurrence-ordered count list left to right). -/
def sortDesc (l : List (String × Nat)) : List (String × Nat) :=
  l.foldl (fun acc x => insertDesc x acc) []

/-- Sum of the raw-byte lengths of a list of instructions: the total_bytes
expression of Disassembler._generate_statistics. -/
def sumLens (l : List Instruction) : Nat :=
  (l.map (fun i => i.raw_bytes.length)).sum

/-- Sum of the inclusive sizes end - start + 1 of unknown regions: the
unknown_bytes expression of Disassembler._generate_statistics. -/
def sumSizes (l : List (Nat × Nat × List Nat)) : Nat :=
  (l.map (fun r => r.2.1 - r.1 + 1)).sum

/-- Disassembler._generate_statistics on the sweep output. -/
def generate_statistics (instructions : List Instruction)
    (unknown_regions : List (Nat × Nat × List Nat)) : Statistics :=
  let total_bytes := sumLens instructions
  let unknown_bytes := sumSizes unknown_regions
  let counts := instructions.foldl (fun acc i => bumpCount acc i.mnemonic) []
  { instruction_count := instructions.length
    decoded_bytes := total_bytes
    unknown_bytes := unknown_bytes
    decode_rate := if 0 < total_bytes + unknown_bytes then
        (total_bytes : Rat) / ((total_bytes : Rat) + (unknown_bytes : Rat))
      else 0
    branch_count := (instructions.filter (fun i => i.is_branch)).length
    call_count := (instructions.filter (fun i => i.is_call)).length
    return_count := (instructions.filter (fun i => i.is_return)).length
    top_mnemonics := (sortDesc counts).take 10 }

/-- Flushing a pending unknown region (disassembler.py lines 251-255 and
270-271): an open run starting at s is emitted as the region
(s, current_address - 1, bytes); no open run emits nothing. -/
def flushPending (address : Nat) (unknown_start : Option Nat)
    (unknown_bytes : List Nat) : List (Nat × Nat × List Nat) :=
  match unknown_start with
  | some s => [(s, address - 1, unknown_bytes)]
  | none => []

/-- The linear-sweep loop of Disassembler.disassemble (source lines 245-271),
written with an explicit fuel argument; the caller passes fuel =
data.length, which is enough because every iteration advances offset by at
least one (decoded lengths are always at least 2, failures advance by one).
With sufficient fuel the fuel-exhausted branch coincides with the normal
loop exit, whose flush of a pending unknown region is flushPending. -/
def sweepGo (data : List Nat) :
    Nat → Nat → Nat → Option Nat → List Nat →
    List Instruction × List (Nat × Nat × List Nat)
  | 0, _, address, unknown_start, unknown_bytes =>
    ([], flushPending address unknown_start unknown_bytes)
  | fuel + 1, offset, address, unknown_start, unknown_bytes =>
    if offset < data.length then
      match NativeDecoder.decode_instruction data offset address with
      | some inst =>
        let k := inst.raw_bytes.length
        let rest := sweepGo data fuel (offset + k) (address + k) none []
        (inst :: rest.1, flushPending address unknown_start unknown_bytes ++ rest.2)
      | none =>
        sweepGo data fuel (offset + 1) (address + 1)
          (some (unknown_start.getD address)) (unknown_bytes ++ [data.getD offset 0])
    else
      ([], flushPending address unknown_start unknown_bytes)

/-- Disassembler.disassemble: run the sweep from offset 0, build the initial
CFG (module name and entry points only) and the statistics.  Python
truthiness: a present-but-zero metadata entry point is falsy, so it falls
back to the base address. -/
def disassemble (data : List Nat) (base_address : Nat)
    (metadata : Option ModuleMetadata) : DisassemblyResult :=
  let res := sweepGo data data.length 0 base_address none []
  let instructions := res.1
  let unknown_regions := res.2
  let entry_points :=
    match metadata with
    | some md =>
      (match md.entry_point with
       | some ep => if ep ≠ 0 then [ep] else [base_address]
       | none => [base_address])
    | none => [base_address]
  let cfg : ControlFlowGraph :=
    { module_name := match metadata with
        | some md => md.name
        | none => some "unknown"
      entry_points := entry_points }
  { metadata := metadata.getD {}
    instructions := instructions
    cfg := cfg
    unknown_regions := unknown_regions
    statistics := generate_statistics instructions unknown_regions }

end Disassembler

/-- Lookup in the Python dict built as (curly) inst.address mapsto inst
comprehension over an instruction list: a later instruction with the same
address overwrites an earlier one, hence the reversed first-match search. -/
def instruction_map_lookup (insts : List Instruction) (a : Nat) : Option Instruction :=
  insts.reverse.find? (fun i => i.address == a)

/-- Membership in that dict. -/
def instruction_map_contains (insts : List Instruction) (a : Nat) : Bool :=
  insts.any (fun i => i.address == a)

/-- The two exceptions the CFG builder can raise: cfg_builder.py line 120
calls append on self.blocks, which build_cfg initialises to a dict (line
21), raising AttributeError; and cfg_builder.py line 36 reads the local
variable cfg before its assignment on line 42, raising UnboundLocalError. -/
inductive PyError where
  | attributeError (msg : String)
  | unboundLocalError (msg : String)
deriving DecidableEq, Repr

namespace CFGBuilder

/-- cfg_builder.py CFGBuilder._is_unconditional_branch.  An empty operand
list is falsy in Python, so the BC/BCR conjuncts fail on it. -/
def is_unconditional_branch (i : Instruction) : Bool :=
  let firstIs15 := match i.operands with
    | [] => false
    | o :: _ => o == "15"
  (i.mnemonic == "BC" && firstIs15) || (i.mnemonic == "BCR" && firstIs15) ||
    i.mnemonic == "B" || i.mnemonic == "BR"

/-- Truthy-and-present test of cfg_builder.py line 65: branch_target must be
non-None, nonzero (Python truthiness) and a key of the instruction map. -/
def target_in_map (insts : List Instruction) (bt : Int) : Bool :=
  bt ≠ 0 && 0 ≤ bt && instruction_map_contains insts bt.toNat

/-- Insertion into the leader set: leaders is a Python set of addresses,
modelled as a duplicate-free list (membership is all that matters — the
builder only ever sorts it). -/
def setInsert (x : Nat) (s : List Nat) : List Nat :=
  if s.contains x then s else s ++ [x]

/-- Structural insertion of a value into an ascending list. -/
def insertSorted (x : Nat) : List Nat → List Nat
  | [] => [x]
  | y :: ys => if x ≤ y then x :: y :: ys else y :: insertSorted x ys

/-- Ascending insertion sort, the model of Python sorted over the leader
set. -/
def sortNat (l : List Nat) : List Nat :=
  l.foldr insertSorted []

/-- The entry-point pass of CFGBuilder._find_leaders (lines 52-55). -/
def leaders_entry (insts : List Instruction) (entry_points : List Nat) : List Nat :=
  entry_points.foldl
    (fun acc ep => if instruction_map_contains insts ep then setInsert ep acc else acc) []

/-- The per-instruction pass of CFGBuilder._find_leaders (lines 61-80);
insts_all is the full stream (for the target-membership test), the second
argument the remaining suffix being traversed (its head is instruction i,
the head of its tail instruction i+1). -/
def leaders_scan (insts_all : List Instruction) :
    List Instruction → List Nat → List Nat
  | [], acc => acc
  | inst :: rest, acc =>
    let addNext : List Nat → List Nat := fun a =>
      match rest with
      | [] => a
      | n :: _ => setInsert n.address a
    let acc :=
      if inst.is_branch then
        let acc :=
          match inst.branch_target with
          | some bt => if target_in_map insts_all bt then setInsert bt.toNat acc else acc
          | none => acc
        if ¬ is_unconditional_branch inst then addNext acc else acc
      else if inst.is_call then addNext acc
      else if inst.is_return then addNext acc
      else acc
    leaders_scan insts_all rest acc

/-- cfg_builder.py CFGBuilder._find_leaders. -/
def find_leaders (insts : List Instruction) (entry_points : List Nat) : List Nat :=
  let l0 := leaders_entry insts entry_points
  let l1 :=
    if l0 = [] then
      match insts with
      | [] => l0
      | i :: _ => setInsert i.address l0
    else l0
  leaders_scan insts insts l1

/-- Pair each sorted leader with its successor leader, none for the last —
the shape of the indexed loop of CFGBuilder._create_basic_blocks. -/
def leaders_with_next (sorted : List Nat) : List (Nat × Option Nat) :=
  sorted.zip (sorted.tail.map some ++ [none])

/-- The end address a block would get in _create_basic_blocks (lines
87-96). -/
def block_end_addr (insts : List Instruction) (leader : Nat) (next : Option Nat) : Nat :=
  match next with
  | some nl => nl - 1
  | none =>
    match insts.getLast? with
    | some li => li.address + li.raw_bytes.length - 1
    | none => leader

/-- The instructions a block would collect in _create_basic_blocks (lines
99-102). -/
def block_instructions (insts : List Instruction) (leader endAddr : Nat) :
    List Instruction :=
  insts.filter (fun i => leader ≤ i.address && i.address ≤ endAddr)

/-- Whether the loop of _create_basic_blocks reaches line 120,
self.blocks.append(block): it does as soon as some leader collects a
non-empty instruction list (empty ones are skipped by the continue on line
105).  self.blocks is the dict initialised on line 21, so reaching append
raises AttributeError. -/
def create_blocks_raises (insts : List Instruction) (sorted : List Nat) : Bool :=
  (leaders_with_next sorted).any
    (fun p => !(block_instructions insts p.1 (block_end_addr insts p.1 p.2)).isEmpty)

/-- cfg_builder.py CFGBuilder.build_cfg.  The happy path does not exist: if
any block is created, line 120 raises AttributeError (append on a dict);
otherwise the loop of _add_control_flow_edges runs zero times over the empty
dict and line 36 (cfg.unresolved_branches.extend) raises UnboundLocalError,
because the local cfg is only assigned on line 42.  Either way the call
raises, which this embedding returns as an Except.error. -/
def build_cfg (r : DisassemblyResult) : Except PyError ControlFlowGraph :=
  let insts := r.instructions
  let leaders := find_leaders insts r.cfg.entry_points
  let sorted := sortNat leaders
  if create_blocks_raises insts sorted then
    Except.error (PyError.attributeError "dict object has no attribute append")
  else
    Except.error (PyError.unboundLocalError "local variable cfg referenced before assignment")

end CFGBuilder

namespace Ingestion

/-- ingestion.py BinaryIngestor._ebcdic_to_ascii. -/
def ebcdic_to_ascii (bs : List Nat) : String :=
  String.mk (bs.map (fun b =>
    if b = 0x40 then Char.ofNat 32
    else if 0xC1 ≤ b ∧ b ≤ 0xC9 then Char.ofNat (65 + (b - 0xC1))
    else if 0xD1 ≤ b ∧ b ≤ 0xD9 then Char.ofNat (74 + (b - 0xD1))
    else if 0xE2 ≤ b ∧ b ≤ 0xE9 then Char.ofNat (83 + (b - 0xE2))
    else if 0xF0 ≤ b ∧ b ≤ 0xF9 then Char.ofNat (48 + (b - 0xF0))
    else Char.ofNat 46))

/-- Ingestor state: the byte buffer plus the fields load_file populates. -/
structure Ingestor where
  data : List Nat
  metadata : ModuleMetadata
  code_start : Nat
  code_end : Nat
deriving DecidableEq, Repr

/-- Big-endian 16-bit read at an offset (struct.unpack of pattern
greater-than H); call sites guarantee the bytes exist. -/
def be16at (data : List Nat) (off : Nat) : Nat :=
  data.getD off 0 * 256 + data.getD (off + 1) 0

/-- Big-endian 32-bit read at an offset (struct.unpack of pattern
greater-than I). -/
def be32at (data : List Nat) (off : Nat) : Nat :=
  ((data.getD off 0 * 256 + data.getD (off + 1) 0) * 256 + data.getD (off + 2) 0) * 256 +
    data.getD (off + 3) 0

/-- ingestion.py BinaryIngestor._has_pds_header. -/
def has_pds_header (data : List Nat) : Bool :=
  20 ≤ data.length &&
    (data.take 8).all (fun b => b == 0x40 || (0xC1 ≤ b && b ≤ 0xE9))

/-- ingestion.py BinaryIngestor._looks_like_load_module: the buffer starts
with one of the four entry patterns (a buffer shorter than the pattern
cannot start with it). -/
def looks_like_load_module (data : List Nat) : Bool :=
  [[0x47, 0xF0], [0x90, 0xEC], [0x18, 0x0F], [0x05, 0xC0]].any
    (fun p => data.take 2 == p)

/-- External-symbol loop of _extract_sections: external_count entries of 16
bytes each, stopping early when fewer than 16 bytes remain; returns the
symbols together with the offset where the section loop continues. -/
def read_externals (data : List Nat) : Nat → Nat → List String → List String × Nat
  | 0, off, acc => (acc.reverse, off)
  | n + 1, off, acc =>
    if data.length < off + 16 then (acc.reverse, off)
    else
      read_externals data n (off + 16)
        ((ebcdic_to_ascii ((data.drop off).take 8)).trim :: acc)

/-- Section-descriptor loop of _extract_sections: section_count entries of
20 bytes each (offset and size words), stopping early when fewer than 20
bytes remain. -/
def read_sections (data : List Nat) : Nat → Nat → List (Nat × Nat) → List (Nat × Nat)
  | 0, _, acc => acc.reverse
  | n + 1, off, acc =>
    if data.length < off + 20 then acc.reverse
    else read_sections data n (off + 20) ((be32at data off, be32at data (off + 4)) :: acc)

/-- ingestion.py BinaryIngestor._parse_program_object (including
_extract_sections); a buffer shorter than 32 bytes only logs a warning and
leaves the zero code bounds in place. -/
def parse_program_object (ing : Ingestor) : Ingestor :=
  if ing.data.length < 32 then ing
  else
    let text_size := be32at ing.data 8
    let entry_offset := be32at ing.data 12
    let external_count := be16at ing.data 16
    let section_count := be16at ing.data 18
    let exts := read_externals ing.data external_count 32 []
    let csects := read_sections ing.data section_count exts.2 []
    { ing with
      code_start := 32
      code_end := min (32 + text_size) ing.data.length
      metadata := { ing.metadata with
        entry_point := some entry_offset
        external_symbols := exts.1
        csect_info := csects } }

/-- ingestion.py BinaryIngestor._parse_load_module (including
_extract_pds_info and _extract_attributes). -/
def parse_load_module (ing : Ingestor) : Ingestor :=
  let off := if has_pds_header ing.data then 20 else 0
  let md0 :=
    if has_pds_header ing.data then
      { ing.metadata with attributes :=
          ing.metadata.attributes ++ [("pds_member", ebcdic_to_ascii (ing.data.take 8))] }
    else ing.metadata
  let md1 :=
    if off < ing.data.length then { md0 with entry_point := some off } else md0
  { ing with
    code_start := off
    code_end := ing.data.length
    metadata := { md1 with amode := some 31, rmode := some "ANY" } }

/-- ingestion.py BinaryIngestor._apply_heuristics: scan the first 256 bytes
at stride two for an entry pattern; the entry point is the first hit, else
zero. -/
def apply_heuristics (ing : Ingestor) : Ingestor :=
  let n := ing.data.length
  let scanLen := min 256 (n - 2)
  let idxs := (List.range ((scanLen + 1) / 2)).map (fun k => 2 * k)
  let cands := idxs.filter (fun i =>
    ((ing.data.drop i).take 2 == [0x90, 0xEC]) ||
      (ing.data.getD i 0 == 0x05 || ing.data.getD i 0 == 0x0D))
  let ep := match cands with
    | [] => 0
    | c :: _ => c
  { ing with
    code_start := 0
    code_end := n
    metadata := { ing.metadata with entry_point := some ep } }

/-- ingestion.py BinaryIngestor._detect_format. -/
def detect_format (ing : Ingestor) : Ingestor :=
  if 4 ≤ ing.data.length ∧ ing.data.take 2 = [0x00, 0x03] then
    parse_program_object
      { ing with metadata := { ing.metadata with format_type := "program_object" } }
  else if looks_like_load_module ing.data then
    parse_load_module
      { ing with metadata := { ing.metadata with format_type := "load_module" } }
  else
    apply_heuristics
      { ing with metadata := { ing.metadata with format_type := "unknown" } }

/-- ingestion.py BinaryIngestor.load_file, with the file already read into a
byte list and the path stem given (metadata.name = file_path.stem).  The
source returns False for a buffer below eight bytes, which the pipeline
turns into analysis failure with no result; that is the none case here.
Nothing in _detect_format can raise, so every other buffer loads. -/
def load_file (data : List Nat) (stem : String) : Option Ingestor :=
  if data.length < 8 then none
  else
    some (detect_format
      { data := data
        metadata := { name := some stem }
        code_start := 0
        code_end := 0 })

/-- ingestion.py BinaryIngestor.get_code_bytes: the slice
data[code_start:code_end]. -/
def get_code_bytes (ing : Ingestor) : List Nat :=
  (ing.data.drop ing.code_start).take (ing.code_end - ing.code_start)

end Ingestion

/-- Region classification types, classifier.py class RegionType. -/
inductive RegionType where
  | CODE
  | DATA
  | UNKNOWN
deriving DecidableEq, Repr

/-- Classified region, classifier.py class Region (the evidence strings keep
the static text of the source without the interpolated numeric rendering,
which no claim inspects). -/
structure Region where
  start_addr : Nat
  end_addr : Nat
  region_type : RegionType
  confidence : Confidence
  evidence : String
  decode_rate : Rat := 0
deriving DecidableEq, Repr

namespace RegionClassifier

/-- The bytes one loop iteration of _classify_section adds for an address:
the full raw length of the instruction registered at that address when its
mnemonic is decoded, else nothing. -/
def counted_len (insts : List Instruction) (a : Nat) : Nat :=
  match instruction_map_lookup insts a with
  | some inst => if inst.mnemonic ≠ "UNKNOWN" then inst.raw_bytes.length else 0
  | none => 0

/-- The decoded-byte count of the _classify_section loop over
range(start, end + 1): each address registered in the instruction map with a
decoded mnemonic contributes its full raw length. -/
def section_decoded_bytes (start_addr end_addr : Nat) (insts : List Instruction) : Nat :=
  (List.range' start_addr (end_addr + 1 - start_addr)).foldl
    (fun acc a => acc + counted_len insts a) 0

/-- classifier.py RegionClassifier._classify_section.  The data argument of
the source is unused there.  The 0.70 and 0.30 thresholds are modelled as
exact rationals; no claim depends on the float rounding of the literals. -/
def classify_section (start_addr end_addr : Nat) (insts : List Instruction) : Region :=
  let section_size : Int := (end_addr : Int) - (start_addr : Int) + 1
  let decoded_bytes := section_decoded_bytes start_addr end_addr insts
  let decode_rate : Rat :=
    if 0 < section_size then (decoded_bytes : Rat) / (section_size : Rat) else 0
  let r :=
    if (7 : Rat) / 10 < decode_rate then
      { start_addr := start_addr, end_addr := end_addr,
        region_type := RegionType.CODE, confidence := Confidence.HIGH,
        evidence := "decode_rate above threshold" : Region }
    else if decode_rate < (3 : Rat) / 10 then
      { start_addr := start_addr, end_addr := end_addr,
        region_type := RegionType.DATA, confidence := Confidence.MEDIUM,
        evidence := "decode_rate below threshold" : Region }
    else
      { start_addr := start_addr, end_addr := end_addr,
        region_type := RegionType.UNKNOWN, confidence := Confidence.LOW,
        evidence := "decode_rate in uncertain range" : Region }
  { r with decode_rate := decode_rate }

/-- classifier.py RegionClassifier._detect_constant_pools.  The source
mutates the region list while iterating it; since a reclassification only
turns UNKNOWN into DATA and the flanking tests only look for CODE regions,
the mutated and the original list give every test the same answer, so the
pass is the pointwise map below. -/
def detect_constant_pools (regions : List Region) : List Region :=
  regions.map (fun r =>
    if r.region_type = RegionType.UNKNOWN ∧ r.end_addr - r.start_addr + 1 < 256 ∧
        (regions.any (fun o => o.region_type == RegionType.CODE && o.end_addr < r.start_addr)) ∧
        (regions.any (fun o => o.region_type == RegionType.CODE && r.end_addr < o.start_addr)) then
      { r with
        region_type := RegionType.DATA
        confidence := Confidence.MEDIUM
        evidence := "constant_pool_pattern (between code regions)" }
    else r)

/-- classifier.py RegionClassifier.classify: classify every candidate
section (the byte payload of a section is unused by _classify_section),
then run the constant-pool post-pass. -/
def classify (sections : List (Nat × Nat × List Nat)) (insts : List Instruction) :
    List Region :=
  detect_constant_pools (sections.map (fun s => classify_section s.1 s.2.1 insts))

end RegionClassifier

namespace Pipeline

/-- pipeline.py ReverseEngineeringPipeline.process_file over an
already-read byte buffer; stem is the path stem, t the elapsed-clock
reading the driver would store as processing_time.  The whole body runs
inside try/except, so any raise yields None; build_cfg always raises (see
CFGBuilder.build_cfg), so the error arm is taken on every loadable input.
The ok arm is unreachable (proved below); it keeps the clock and path
writes of the source and does not model the procedure detection that would
follow, since no execution reaches it.  (Importing the source module even
raises ImportError first: pipeline.py line 9 imports ExternalDecoder, which
disassembler.py no longer defines; the body modelled here is the
decoder_type native path.) -/
def process_file (data : List Nat) (stem : String) (t : Rat) :
    Option DisassemblyResult :=
  match Ingestion.load_file data stem with
  | none => none
  | some ing =>
    let r := Disassembler.disassemble (Ingestion.get_code_bytes ing) ing.code_start
      (some ing.metadata)
    match CFGBuilder.build_cfg r with
    | Except.error _ => none
    | Except.ok cfg =>
      some { r with
        cfg := cfg
        statistics := { r.statistics with
          processing_time := some t
          file_path := some stem } }

end Pipeline

/-!
Concrete inputs used by the theorems below, taken from the specification
scenarios and the repository test suite, plus the spec-side table for the
instruction-length refinement comparison.
-/

/-- Scenario 1 of the spec (also tests/test_pipeline.py
test_synthetic_binary): BALR, STM, LA, L, A, ST, LM, BCR over 28 bytes. -/
def sample_prologue : List Nat :=
  [0x05, 0xEF,
   0x90, 0xEC, 0xD0, 0x0C,
   0x41, 0x10, 0x01, 0x00,
   0x58, 0x20, 0x10, 0x00,
   0x5A, 0x20, 0x02, 0x00,
   0x50, 0x20, 0x10, 0x00,
   0x98, 0xEC, 0xD0, 0x0C,
   0x07, 0xFE]

/-- The conditional-branch program of tests/test_pipeline.py
test_cfg_builder (22 bytes, three-way block structure joining at BCR). -/
def sample_branchy : List Nat :=
  [0x05, 0xEF,
   0x55, 0x20, 0x30, 0x00,
   0x47, 0x80, 0x00, 0x14,
   0x41, 0x10, 0x01, 0x00,
   0x47, 0xF0, 0x00, 0x1C,
   0x41, 0x10, 0x02, 0x00,
   0x07, 0xFE]

/-- The instruction-length table exactly as the claim words it (spec table
of section 4.2.1): each listed first-byte range, with 2 for every other
byte.  This definition follows the wording of the specification, for
comparison against the source function get_instruction_length. -/
def spec_table_length (b : Nat) : Nat :=
  if b ≤ 0x1F then 2
  else if 0x40 ≤ b ∧ b ≤ 0x5F then 4
  else if 0x86 ≤ b ∧ b ≤ 0x9B then 4
  else if b = 0xA5 ∨ b = 0xA7 ∨ b = 0xB2 ∨ b = 0xB3 ∨ b = 0xB9 then 4
  else if b = 0xC0 ∨ b = 0xC2 ∨ b = 0xC4 ∨ b = 0xC6 ∨ b = 0xC8 then 6
  else if 0xD0 ≤ b ∧ b ≤ 0xDF then 6
  else if b = 0xE3 ∨ b = 0xEB ∨ b = 0xEC ∨ b = 0xED then 6
  else if 0xF0 ≤ b ∧ b ≤ 0xFD then 6
  else 2

/-- The spec table amended by exactly the deviations the source exhibits:
0x52, 0x53, 0x93, 0xD8 and 0xF4-0xF7 are absent from OPCODE_LENGTHS and
fall to the 2-byte default, while 0xE5 is present with length 4. -/
def amended_table_length (b : Nat) : Nat :=
  if b = 0x52 ∨ b = 0x53 ∨ b = 0x93 ∨ b = 0xD8 ∨ (0xF4 ≤ b ∧ b ≤ 0xF7) then 2
  else if b = 0xE5 then 4
  else spec_table_length b

/-- The instruction the decoder yields for the bytes 07 FE (BCR 15,14), the
conventional return. -/
def bcr_15_14 : Instruction :=
  { address := 0
    raw_bytes := [0x07, 0xFE]
    hex_bytes := "07FE"
    mnemonic := "BCR"
    operands := ["15", "14"]
    format := InstructionFormat.RR
    is_branch := true
    is_call := false
    is_return := true
    branch_target := none
    confidence := Confidence.HIGH }

/-- The instruction the decoder yields for the bytes 47 F0 10 00 at address
0: mask 15, index 0, base register 1, displacement 0 — so the rendered
second operand is 0(1) and the target is unresolved. -/
def bc_47F01000 : Instruction :=
  { address := 0
    raw_bytes := [0x47, 0xF0, 0x10, 0x00]
    hex_bytes := "47F01000"
    mnemonic := "BC"
    operands := ["15", "0(1)"]
    format := InstructionFormat.RX
    is_branch := true
    is_call := false
    is_return := false
    branch_target := none
    confidence := Confidence.HIGH }

/-- The instruction the decoder yields for the bytes 47 F0 00 64 at address
0: base register 0, displacement 100, hence an absolute resolved target. -/
def bc_47F00064 : Instruction :=
  { address := 0
    raw_bytes := [0x47, 0xF0, 0x00, 0x64]
    hex_bytes := "47F00064"
    mnemonic := "BC"
    operands := ["15", "100(0)"]
    format := InstructionFormat.RX
    is_branch := true
    is_call := false
    is_return := false
    branch_target := some 100
    confidence := Confidence.HIGH }

/-- The instruction stream of a single six-byte MVC at address 0, used for
the classifier boundary counterexample. -/
def mvc_insts : List Instruction :=
  (Disassembler.disassemble [0xD2, 0, 0, 0, 0, 0] 0 none).instructions

/-- The instruction stream of a single two-byte BALR at address 0. -/
def balr_insts : List Instruction :=
  (Disassembler.disassemble [0x05, 0xEF] 0 none).instructions

/-- A seven-byte buffer: below the eight-byte ingestion minimum. -/
def tiny_buffer : List Nat := [0, 0, 0, 0, 0, 0, 0]

/-- Equality of build_cfg results is decidable (needed to settle concrete
build_cfg evaluations by decide). -/
instance : DecidableEq (Except PyError ControlFlowGraph) := fun a b =>
  match a, b with
  | Except.error e1, Except.error e2 =>
    if h : e1 = e2 then Decidable.isTrue (by rw [h]) else
      Decidable.isFalse (by intro hc; injection hc; contradiction)
  | Except.error _, Except.ok _ => Decidable.isFalse (by intro hc; injection hc)
  | Except.ok _, Except.error _ => Decidable.isFalse (by intro hc; injection hc)
  | Except.ok v1, Except.ok v2 =>
    if h : v1 = v2 then Decidable.isTrue (by rw [h]) else
      Decidable.isFalse (by intro hc; injection hc; contradiction)

/-- An eight-byte buffer starting with the BC 15 load-module pattern. -/
def small_module : List Nat := [0x47, 0xF0, 0, 0, 0, 0, 0, 0]

/-- The ingestor state load_file produces for small_module with stem mod:
load-module path, no PDS header, code region the whole buffer. -/
def small_module_ingestor : Ingestion.Ingestor :=
  { data := small_module
    metadata :=
      { name := some "mod"
        format_type := "load_module"
        entry_point := some 0
        amode := some 31
        rmode := some "ANY" }
    code_start := 0
    code_end := 8 }

/-!
Theorems.  Helper lemmas come first; the claim theorems carry the claim ids
in their doc comments.
-/

/-- Every value stored in a Nat-valued lookup list bounds the lookup-with-
default result from below when the default is also bounded. -/
theorem lookup_getD_ge (l : List (Nat × Nat)) (d k c : Nat) (hd : c ≤ d)
    (h : ∀ p ∈ l, c ≤ p.2) : c ≤ (l.lookup k).getD d := by
  induction l with
  | nil => simpa [List.lookup] using hd
  | cons p t ih =>
    rw [List.lookup]
    rcases hbk : (k == p.1) with _ | _
    · exact ih (fun q hq => h q (List.mem_cons_of_mem _ hq))
    · simpa using h p (List.mem_cons_self _ _)

set_option maxRecDepth 4000 in
/-- Decoded instruction lengths are always at least two bytes: the three
explicit opcode-set branches return 4 or 6, the table values are 2, 4 or 6,
and the table default is 2. -/
theorem get_instruction_length_ge_two (opcode : Nat) :
    2 ≤ NativeDecoder.get_instruction_length opcode := by
  unfold NativeDecoder.get_instruction_length
  split_ifs
  · exact by norm_num
  · exact by norm_num
  · exact by norm_num
  · exact lookup_getD_ge _ _ _ _ (by norm_num) (by decide)

/-- Inversion for a successful decode: the opcode byte exists, enough bytes
remain, and the result is the decoded_at record. -/
theorem decode_instruction_eq_some {data : List Nat} {offset address : Nat}
    {inst : Instruction}
    (h : NativeDecoder.decode_instruction data offset address = some inst) :
    ∃ opcode, data.get? offset = some opcode ∧
      offset + NativeDecoder.get_instruction_length opcode ≤ data.length ∧
      inst = NativeDecoder.decoded_at data offset address opcode := by
  unfold NativeDecoder.decode_instruction at h
  rcases hg : data.get? offset with _ | opcode
  · rw [hg] at h; cases h
  · rw [hg] at h
    by_cases hb : data.length < offset + NativeDecoder.get_instruction_length opcode
    · simp [hb] at h
    · simp [hb] at h
      exact ⟨opcode, rfl, by omega, h.symm⟩

/-- The raw byte slice of a decoded instruction has exactly the table
length. -/
theorem decoded_at_raw_length {data : List Nat} {offset address opcode : Nat}
    (hb : offset + NativeDecoder.get_instruction_length opcode ≤ data.length) :
    (NativeDecoder.decoded_at data offset address opcode).raw_bytes.length
      = NativeDecoder.get_instruction_length opcode := by
  show ((data.drop offset).take _).length = _
  rw [List.length_take, List.length_drop]
  omega

/-- A successful decode consumes at least two and at most the remaining
bytes. -/
theorem decode_some_raw_len {data : List Nat} {offset address : Nat}
    {inst : Instruction}
    (h : NativeDecoder.decode_instruction data offset address = some inst) :
    2 ≤ inst.raw_bytes.length ∧ offset + inst.raw_bytes.length ≤ data.length := by
  obtain ⟨opcode, _, hb, rfl⟩ := decode_instruction_eq_some h
  rw [decoded_at_raw_length hb]
  exact ⟨get_instruction_length_ge_two opcode, hb⟩

/-- build_cfg raises on every input: when a block would be created, the
append on the blocks dict raises AttributeError; otherwise the unassigned
local cfg raises UnboundLocalError. -/
theorem build_cfg_always_error (r : DisassemblyResult) :
    ∃ e, CFGBuilder.build_cfg r = Except.error e := by
  unfold CFGBuilder.build_cfg
  rcases hc : CFGBuilder.create_blocks_raises r.instructions
      (CFGBuilder.sortNat (CFGBuilder.find_leaders r.instructions r.cfg.entry_points))
    with _ | _
  · exact ⟨PyError.unboundLocalError "local variable cfg referenced before assignment",
      by simp [hc]⟩
  · exact ⟨PyError.attributeError "dict object has no attribute append", by simp [hc]⟩

/-- C1.  The claim states that build_cfg returns normally (a well-formed
ControlFlowGraph) for every disassembly result, in particular for every
instruction stream with at least one leader.  The source does the opposite:
for every input, build_cfg raises — AttributeError from
self.blocks.append(block) on a dict as soon as any leader yields a block,
and UnboundLocalError from the premature cfg.unresolved_branches.extend
otherwise — so no call ever returns a ControlFlowGraph. -/
theorem claim_C1_build_cfg_never_returns (r : DisassemblyResult) :
    ∃ e, CFGBuilder.build_cfg r = Except.error e :=
  build_cfg_always_error r

/-- C2 counterexample.  The claim assigns length 4 to every first byte in
0x40-0x5F, but the source table omits 0x52, which therefore falls to the
2-byte default. -/
theorem claim_C2_counterexample :
    NativeDecoder.get_instruction_length 0x52 = 2 ∧
      0x40 ≤ 0x52 ∧ 0x52 ≤ 0x5F ∧ spec_table_length 0x52 = 4 := by
  decide

set_option maxRecDepth 8000 in
/-- C2, amended.  get_instruction_length agrees with the claimed table on
every byte except the documented deviations: 0x52, 0x53, 0x93, 0xD8 and
0xF4-0xF7 decode with the default length 2, and 0xE5 with length 4. -/
theorem claim_C2_length_table (b : Nat) (hb : b < 256) :
    NativeDecoder.get_instruction_length b = amended_table_length b := by
  revert b hb
  decide

/-- C2 witness: the amended table theorem applied at the first RX opcode. -/
theorem claim_C2_length_table_witness :
    NativeDecoder.get_instruction_length 0x40 = amended_table_length 0x40 :=
  claim_C2_length_table 0x40 (by decide)

/-- The statistics of a disassembly are generate_statistics of its
instruction and unknown-region lists. -/
theorem disassemble_statistics_eq (data : List Nat) (base : Nat)
    (md : Option ModuleMetadata) :
    (Disassembler.disassemble data base md).statistics =
      Disassembler.generate_statistics
        (Disassembler.disassemble data base md).instructions
        (Disassembler.disassemble data base md).unknown_regions := rfl

/-- The stored decode rate is the guarded rational division of the decoded
and unknown byte totals. -/
theorem generate_statistics_decode_rate (I : List Instruction)
    (R : List (Nat × Nat × List Nat)) :
    (Disassembler.generate_statistics I R).decode_rate =
      if 0 < Disassembler.sumLens I + Disassembler.sumSizes R then
        (Disassembler.sumLens I : Rat) /
          ((Disassembler.sumLens I : Rat) + (Disassembler.sumSizes R : Rat))
      else 0 := rfl

/-- C3.  The claim expects, on the 28-byte prologue scenario, 8 decoded
instructions with decode_rate 1.0, at least one basic block and a prologue
procedure at the STM.  The instruction-level part holds, but the STM
decodes in SI format with first operand the immediate X-quoted EC, never
the string 14 required by the prologue detector, and build_cfg raises
AttributeError before any block exists, so process_file (which catches the
exception) yields no result at all — matching neither the claim nor the
repository test asserting it. -/
theorem claim_C3_prologue_scenario :
    (Disassembler.disassemble sample_prologue 0 none).instructions.length = 8 ∧
    (Disassembler.disassemble sample_prologue 0 none).statistics.decode_rate = 1 ∧
    ((Disassembler.disassemble sample_prologue 0 none).instructions.map
      (fun i => i.mnemonic)) = ["BALR", "STM", "LA", "L", "A", "ST", "LM", "BCR"] ∧
    ((Disassembler.disassemble sample_prologue 0 none).instructions.get? 1).map
      (fun i => i.operands) = some ["X" ++ sq ++ "EC" ++ sq, "12(13)"] ∧
    CFGBuilder.build_cfg (Disassembler.disassemble sample_prologue 0 none)
      = Except.error (PyError.attributeError "dict object has no attribute append") ∧
    Pipeline.process_file sample_prologue "prog" 0 = none := by
  refine ⟨by decide, ?_, by decide, by decide, by decide, by decide⟩
  rw [disassemble_statistics_eq, generate_statistics_decode_rate]
  have h1 : Disassembler.sumLens
      (Disassembler.disassemble sample_prologue 0 none).instructions = 28 := by decide
  have h2 : Disassembler.sumSizes
      (Disassembler.disassemble sample_prologue 0 none).unknown_regions = 0 := by decide
  rw [h1, h2]
  norm_num

/-- C5.  The claimed edge symmetry is a property of a constructed CFG, but
CFG construction never completes: on the repository conditional-branch
program the builder raises AttributeError before storing a single block (and
the edge code it would reach stores integer enumerate indices, not block id
strings, into predecessors), so no CFG with edges ever exists. -/
theorem claim_C5_no_cfg_constructed :
    CFGBuilder.build_cfg (Disassembler.disassemble sample_branchy 0 none)
      = Except.error (PyError.attributeError "dict object has no attribute append") ∧
    (Disassembler.disassemble sample_branchy 0 none).instructions.length = 7 ∧
    (Disassembler.disassemble sample_branchy 0 none).cfg.basic_blocks = [] := by
  refine ⟨by decide, by decide, by decide⟩

/-- The is_return flag of a decoded instruction is the source conditional
applied to its own mnemonic and operand fields. -/
theorem decoded_at_is_return_eq (d : List Nat) (o a op : Nat) :
    (NativeDecoder.decoded_at d o a op).is_return
      = NativeDecoder.pyIsReturn (NativeDecoder.decoded_at d o a op).mnemonic
          (NativeDecoder.decoded_at d o a op).operands := rfl

/-- Unfolding of the is_return conditional: true exactly for BCR with first
operand 15 or BR with first operand 14. -/
theorem pyIsReturn_eq_true_iff (m : String) (ops : List String) :
    NativeDecoder.pyIsReturn m ops = true ↔
      (m = "BCR" ∧ ops.head? = some "15") ∨ (m = "BR" ∧ ops.head? = some "14") := by
  cases ops with
  | nil => simp [NativeDecoder.pyIsReturn]
  | cons o t =>
    simp [NativeDecoder.pyIsReturn, List.head?]

/-- C4, amended.  For every decoded instruction, is_return holds iff the
instruction is BCR whose first (mask) operand is 15 — the second operand is
not inspected, so BCR 15,r is a return for every r — or BR with first
operand 14 (a mnemonic this decoder never emits).  The claim as stated
additionally requires the register operand 14 for BCR, which the
counterexample refutes. -/
theorem claim_C4_is_return (data : List Nat) (offset address : Nat)
    (inst : Instruction)
    (h : NativeDecoder.decode_instruction data offset address = some inst) :
    (inst.is_return = true ↔
      (inst.mnemonic = "BCR" ∧ inst.operands.head? = some "15") ∨
      (inst.mnemonic = "BR" ∧ inst.operands.head? = some "14")) := by
  obtain ⟨op, hg, hb, rfl⟩ := decode_instruction_eq_some h
  rw [decoded_at_is_return_eq]
  exact pyIsReturn_eq_true_iff _ _

/-- C4 counterexample.  The bytes 07 F0 decode as BCR 15,0 — the register
operand is 0, not 14 — yet is_return is true, contradicting the claim that
only BCR 15,14 is classified as a return. -/
theorem claim_C4_counterexample :
    (NativeDecoder.decode_instruction [0x07, 0xF0] 0 0).map
      (fun i => (i.mnemonic, i.operands, i.is_return))
      = some ("BCR", ["15", "0"], true) := by
  decide

/-- C4 witness: the amended theorem applied to the decoded BCR 15,14. -/
theorem claim_C4_witness :
    bcr_15_14.is_return = true ↔
      (bcr_15_14.mnemonic = "BCR" ∧ bcr_15_14.operands.head? = some "15") ∨
      (bcr_15_14.mnemonic = "BR" ∧ bcr_15_14.operands.head? = some "14") :=
  claim_C4_is_return [0x07, 0xFE] 0 0 bcr_15_14 (by decide)

/-- Only the four-byte branch of the operand decoder assigns the RX format
tag. -/
theorem details_RX_length (bs : List Nat)
    (h : (NativeDecoder.decode_instruction_details bs).2.2 = InstructionFormat.RX) :
    bs.length = 4 := by
  simp only [NativeDecoder.decode_instruction_details] at h
  split_ifs at h <;> simp_all

/-- The branch target of a decoded instruction is the source conditional
applied to its own fields. -/
theorem decoded_at_branch_target_eq (d : List Nat) (o a op : Nat) :
    (NativeDecoder.decoded_at d o a op).branch_target =
      if (NativeDecoder.decoded_at d o a op).is_branch = true ∧
          4 ≤ NativeDecoder.get_instruction_length op then
        NativeDecoder.calculate_branch_target
          (NativeDecoder.decoded_at d o a op).raw_bytes a
          (NativeDecoder.decoded_at d o a op).format
      else none := rfl

/-- C6, amended.  General rule as claimed: an RX-format branch resolves to
the absolute displacement d2 exactly when the base register B2 is 0, and
stays unresolved otherwise.  The claimed concrete example is corrected: the
bytes 47 F0 10 00 encode B2 = 1 and D2 = 0 (a 12-bit displacement cannot
encode 4096), so the operands are 15 and 0(1) and the target is None, not
0x1000. -/
theorem claim_C6_rx_branch_target :
    (∀ (data : List Nat) (offset address : Nat) (inst : Instruction),
      NativeDecoder.decode_instruction data offset address = some inst →
      inst.format = InstructionFormat.RX →
      inst.is_branch = true →
      inst.branch_target =
        (if inst.raw_bytes.getD 2 0 / 16 % 16 = 0 then
          some (((inst.raw_bytes.getD 2 0 % 16) * 256 + inst.raw_bytes.getD 3 0 : Nat) : Int)
        else none)) ∧
    NativeDecoder.decode_instruction [0x47, 0xF0, 0x10, 0x00] 0 0 = some bc_47F01000 := by
  constructor
  · intro data offset address inst h hfmt hbr
    obtain ⟨op, hg, hb, rfl⟩ := decode_instruction_eq_some h
    have hlen4 : (NativeDecoder.decoded_at data offset address op).raw_bytes.length = 4 :=
      details_RX_length _ hfmt
    have hgil : NativeDecoder.get_instruction_length op = 4 := by
      have := @decoded_at_raw_length data offset address op hb
      omega
    rw [decoded_at_branch_target_eq, if_pos ⟨hbr, by omega⟩, hfmt]
    simp [NativeDecoder.calculate_branch_target, hlen4]
  · decide

/-- C6 counterexample.  Decoding 47 F0 10 00 at address 0 yields operands
15 and 0(1) with no branch target, not the claimed operands 15 and 4096(0)
with target 0x1000. -/
theorem claim_C6_counterexample :
    (NativeDecoder.decode_instruction [0x47, 0xF0, 0x10, 0x00] 0 0).map
      (fun i => (i.mnemonic, i.operands, i.is_branch, i.branch_target))
      = some ("BC", ["15", "0(1)"], true, none) := by
  decide

/-- C6 witness: the general rule applied to the decoded BC 15,100(0), whose
base register is 0 and whose target therefore resolves to 100. -/
theorem claim_C6_witness :
    bc_47F00064.branch_target =
      (if bc_47F00064.raw_bytes.getD 2 0 / 16 % 16 = 0 then
        some (((bc_47F00064.raw_bytes.getD 2 0 % 16) * 256 +
          bc_47F00064.raw_bytes.getD 3 0 : Nat) : Int)
      else none) :=
  claim_C6_rx_branch_target.1 [0x47, 0xF0, 0x00, 0x64] 0 0 bc_47F00064
    (by decide) (by decide) (by decide)

/-- A recognised PDS directory entry implies at least twenty bytes of
data. -/
theorem has_pds_header_length {d : List Nat} (h : Ingestion.has_pds_header d = true) :
    20 ≤ d.length := by
  unfold Ingestion.has_pds_header at h
  rw [Bool.and_eq_true] at h
  simpa using h.1

/-- Program-object parsing: buffer and name untouched; the code region is
either left at the incoming bounds (short header) or spans from 32 to the
text end clipped to the buffer. -/
theorem parse_program_object_spec (ing : Ingestion.Ingestor) :
    (Ingestion.parse_program_object ing).data = ing.data ∧
    (Ingestion.parse_program_object ing).metadata.name = ing.metadata.name ∧
    (Ingestion.parse_program_object ing).code_start
      = (if ing.data.length < 32 then ing.code_start else 32) ∧
    (Ingestion.parse_program_object ing).code_end
      = (if ing.data.length < 32 then ing.code_end
         else min (32 + Ingestion.be32at ing.data 8) ing.data.length) := by
  unfold Ingestion.parse_program_object
  split_ifs with h <;> simp

/-- Load-module parsing: buffer and name untouched; code region from the
PDS offset to the end of the buffer. -/
theorem parse_load_module_spec (ing : Ingestion.Ingestor) :
    (Ingestion.parse_load_module ing).data = ing.data ∧
    (Ingestion.parse_load_module ing).metadata.name = ing.metadata.name ∧
    (Ingestion.parse_load_module ing).code_start
      = (if Ingestion.has_pds_header ing.data then 20 else 0) ∧
    (Ingestion.parse_load_module ing).code_end = ing.data.length := by
  unfold Ingestion.parse_load_module
  split_ifs <;> simp [apply_ite]

/-- Heuristic fallback: buffer and name untouched; the whole buffer is the
code region. -/
theorem apply_heuristics_spec (ing : Ingestion.Ingestor) :
    (Ingestion.apply_heuristics ing).data = ing.data ∧
    (Ingestion.apply_heuristics ing).metadata.name = ing.metadata.name ∧
    (Ingestion.apply_heuristics ing).code_start = 0 ∧
    (Ingestion.apply_heuristics ing).code_end = ing.data.length := by
  unfold Ingestion.apply_heuristics
  simp

/-- Format detection preserves the buffer and the metadata name and always
leaves a code region inside the buffer (given the eight-byte minimum the
loader enforces). -/
theorem detect_format_spec (d : List Nat) (md0 : ModuleMetadata) (_h8 : 8 ≤ d.length) :
    (Ingestion.detect_format
        { data := d, metadata := md0, code_start := 0, code_end := 0 }).data = d ∧
    (Ingestion.detect_format
        { data := d, metadata := md0, code_start := 0, code_end := 0 }).metadata.name
      = md0.name ∧
    (Ingestion.detect_format
        { data := d, metadata := md0, code_start := 0, code_end := 0 }).code_start ≤
      (Ingestion.detect_format
        { data := d, metadata := md0, code_start := 0, code_end := 0 }).code_end ∧
    (Ingestion.detect_format
        { data := d, metadata := md0, code_start := 0, code_end := 0 }).code_end ≤
      d.length := by
  unfold Ingestion.detect_format
  split_ifs with hpo hlm
  · -- program-object branch
    obtain ⟨h1, h2, h3, h4⟩ := parse_program_object_spec
      { data := d, metadata := { md0 with format_type := "program_object" },
        code_start := 0, code_end := 0 }
    have g3 : (Ingestion.parse_program_object
        { data := d, metadata := { md0 with format_type := "program_object" },
          code_start := 0, code_end := 0 }).code_start ≤
        (Ingestion.parse_program_object
        { data := d, metadata := { md0 with format_type := "program_object" },
          code_start := 0, code_end := 0 }).code_end := by
      rw [h3, h4]
      split_ifs with hs
      · exact Nat.le.refl
      · exact le_min (by omega) (by simpa using hs)
    have g4 : (Ingestion.parse_program_object
        { data := d, metadata := { md0 with format_type := "program_object" },
          code_start := 0, code_end := 0 }).code_end ≤ d.length := by
      rw [h4]
      split_ifs with hs
      · exact Nat.zero_le _
      · exact min_le_right _ _
    exact ⟨h1, h2, g3, g4⟩
  · -- load-module branch
    obtain ⟨h1, h2, h3, h4⟩ := parse_load_module_spec
      { data := d, metadata := { md0 with format_type := "load_module" },
        code_start := 0, code_end := 0 }
    have g3 : (Ingestion.parse_load_module
        { data := d, metadata := { md0 with format_type := "load_module" },
          code_start := 0, code_end := 0 }).code_start ≤
        (Ingestion.parse_load_module
        { data := d, metadata := { md0 with format_type := "load_module" },
          code_start := 0, code_end := 0 }).code_end := by
      rw [h3, h4]
      split_ifs with hp
      · exact has_pds_header_length hp
      · exact Nat.zero_le _
    have g4 : (Ingestion.parse_load_module
        { data := d, metadata := { md0 with format_type := "load_module" },
          code_start := 0, code_end := 0 }).code_end ≤ d.length := by
      rw [h4]
    exact ⟨h1, h2, g3, g4⟩
  · -- heuristic fallback
    obtain ⟨h1, h2, h3, h4⟩ := apply_heuristics_spec
      { data := d, metadata := { md0 with format_type := "unknown" },
        code_start := 0, code_end := 0 }
    have g3 : (Ingestion.apply_heuristics
        { data := d, metadata := { md0 with format_type := "unknown" },
          code_start := 0, code_end := 0 }).code_start ≤
        (Ingestion.apply_heuristics
        { data := d, metadata := { md0 with format_type := "unknown" },
          code_start := 0, code_end := 0 }).code_end := by
      rw [h3, h4]
      exact Nat.zero_le _
    have g4 : (Ingestion.apply_heuristics
        { data := d, metadata := { md0 with format_type := "unknown" },
          code_start := 0, code_end := 0 }).code_end ≤ d.length := by
      rw [h4]
    exact ⟨h1, h2, g3, g4⟩

/-- C8.  A buffer below eight bytes fails to load (the source returns False,
which the pipeline maps to analysis failure with no result, the spec name
for which is FormatError); every loaded buffer yields the metadata record
(carrying the path stem as the name) and a code-region byte slice whose
bounds lie inside the buffer. -/
theorem claim_C8_ingestion (data : List Nat) (stem : String) :
    (data.length < 8 → Ingestion.load_file data stem = none) ∧
    (∀ ing, Ingestion.load_file data stem = some ing →
      ing.data = data ∧ ing.metadata.name = some stem ∧
      ing.code_start ≤ ing.code_end ∧ ing.code_end ≤ data.length ∧
      Ingestion.get_code_bytes ing
        = (data.drop ing.code_start).take (ing.code_end - ing.code_start)) := by
  constructor
  · intro h
    simp [Ingestion.load_file, h]
  · intro ing h
    unfold Ingestion.load_file at h
    by_cases hlen : data.length < 8
    · rw [if_pos hlen] at h
      cases h
    · rw [if_neg hlen] at h
      have h8 : 8 ≤ data.length := by omega
      obtain ⟨h1, h2, h3, h4⟩ := detect_format_spec data { name := some stem } h8
      injection h with h
      subst h
      refine ⟨h1, h2, h3, h4, ?_⟩
      unfold Ingestion.get_code_bytes
      rw [h1]

/-- C8 witness: the theorem applied to a seven-byte buffer (load failure)
and to the eight-byte load-module buffer (successful load with the whole
buffer as code region). -/
theorem claim_C8_ingestion_witness :
    Ingestion.load_file tiny_buffer "tiny" = none ∧
    (small_module_ingestor.data = small_module ∧
      small_module_ingestor.metadata.name = some "mod" ∧
      small_module_ingestor.code_start ≤ small_module_ingestor.code_end ∧
      small_module_ingestor.code_end ≤ small_module.length ∧
      Ingestion.get_code_bytes small_module_ingestor
        = (small_module.drop small_module_ingestor.code_start).take
            (small_module_ingestor.code_end - small_module_ingestor.code_start)) :=
  ⟨(claim_C8_ingestion tiny_buffer "tiny").1 (by decide),
   (claim_C8_ingestion small_module "mod").2 small_module_ingestor (by decide)⟩

/-- C9.  Determinism of the analysis: the embedded pipeline is a pure
function of the input buffer, and in particular its output does not depend
on the wall-clock reading the driver would record as processing_time — the
only clock-dependent write sits on the arm following a successful build_cfg,
which never executes because build_cfg raises on every input.  Two runs on
the same buffer therefore agree field by field. -/
theorem claim_C9_determinism (data : List Nat) (stem : String) (t1 t2 : Rat) :
    Pipeline.process_file data stem t1 = Pipeline.process_file data stem t2 := by
  unfold Pipeline.process_file
  cases h : Ingestion.load_file data stem with
  | none => rfl
  | some ing =>
    dsimp only
    obtain ⟨e, he⟩ := build_cfg_always_error
      (Disassembler.disassemble (Ingestion.get_code_bytes ing) ing.code_start
        (some ing.metadata))
    rw [he]

/-- Unfolding lemma for the decoded-byte total of an instruction list. -/
theorem sumLens_cons (i : Instruction) (l : List Instruction) :
    Disassembler.sumLens (i :: l) = i.raw_bytes.length + Disassembler.sumLens l := by
  simp [Disassembler.sumLens]

/-- Unfolding lemma for the unknown-region size total. -/
theorem sumSizes_cons (r : Nat × Nat × List Nat) (l : List (Nat × Nat × List Nat)) :
    Disassembler.sumSizes (r :: l) = (r.2.1 - r.1 + 1) + Disassembler.sumSizes l := by
  simp [Disassembler.sumSizes]

/-- The size total distributes over concatenation. -/
theorem sumSizes_append (a b : List (Nat × Nat × List Nat)) :
    Disassembler.sumSizes (a ++ b) = Disassembler.sumSizes a + Disassembler.sumSizes b := by
  simp [Disassembler.sumSizes]

/-- Under the pending-run invariant, the flushed region accounts for exactly
the pending bytes. -/
theorem sumSizes_flushPending (address : Nat) (us : Option Nat) (ub : List Nat)
    (hnone : us = none → ub = [])
    (hsome : ∀ s, us = some s → s + ub.length = address ∧ ub ≠ []) :
    Disassembler.sumSizes (Disassembler.flushPending address us ub) = ub.length := by
  cases us with
  | none =>
    have hub : ub = [] := hnone rfl
    subst hub
    simp [Disassembler.flushPending, Disassembler.sumSizes]
  | some s =>
    obtain ⟨hs, hne⟩ := hsome s rfl
    have hlen : 1 ≤ ub.length := List.length_pos.mpr hne
    simp [Disassembler.flushPending, Disassembler.sumSizes]
    omega

/-- Invariant of the linear sweep: with enough fuel, the bytes emitted as
instructions plus the bytes flushed as unknown regions account exactly for
the remaining input plus the pending unknown run.  The pending-run
invariant says an open run (unknown_start = some s) holds the bytes from s
up to the current address. -/
theorem sweepGo_partition (data : List Nat) :
    ∀ (fuel offset address : Nat) (us : Option Nat) (ub : List Nat),
      data.length ≤ offset + fuel →
      (us = none → ub = []) →
      (∀ s, us = some s → s + ub.length = address ∧ ub ≠ []) →
      Disassembler.sumLens (Disassembler.sweepGo data fuel offset address us ub).1 +
        Disassembler.sumSizes (Disassembler.sweepGo data fuel offset address us ub).2
        = (data.length - offset) + ub.length := by
  intro fuel
  induction fuel with
  | zero =>
    intro offset address us ub hfuel hnone hsome
    have hflush := sumSizes_flushPending address us ub hnone hsome
    rw [Disassembler.sweepGo]
    simp only [Disassembler.sumLens, List.map_nil, List.sum_nil, Nat.zero_add, hflush]
    omega
  | succ fuel ih =>
    intro offset address us ub hfuel hnone hsome
    have hflush := sumSizes_flushPending address us ub hnone hsome
    rw [Disassembler.sweepGo]
    by_cases hoff : offset < data.length
    · rw [if_pos hoff]
      cases hdec : NativeDecoder.decode_instruction data offset address with
      | some inst =>
        obtain ⟨h2, hle⟩ := decode_some_raw_len hdec
        have ihres := ih (offset + inst.raw_bytes.length) (address + inst.raw_bytes.length)
          none [] (by omega) (fun _ => rfl) (fun s hs => by cases hs)
        dsimp only
        rw [sumLens_cons, sumSizes_append, hflush]
        simp only [List.length_nil] at ihres
        omega
      | none =>
        have ihres := ih (offset + 1) (address + 1) (some (us.getD address))
          (ub ++ [data.getD offset 0]) (by omega) (by simp) ?_
        · rw [List.length_append, List.length_singleton] at ihres
          rw [ihres]
          omega
        · intro s hsome2
          injection hsome2 with hsome2
          constructor
          · rw [List.length_append, List.length_singleton]
            cases us with
            | none =>
              have hub : ub = [] := hnone rfl
              subst hub
              simp only [Option.getD_none] at hsome2
              subst hsome2
              simp
            | some s0 =>
              obtain ⟨hs0, _⟩ := hsome s0 rfl
              simp only [Option.getD_some] at hsome2
              subst hsome2
              omega
          · simp
    · rw [if_neg hoff]
      simp only [Disassembler.sumLens, List.map_nil, List.sum_nil, Nat.zero_add, hflush]
      omega

/-- C10.  The linear sweep partitions the buffer exactly: decoded raw-byte
lengths plus unknown-region sizes (end - start + 1) sum to the buffer
length, and the statistics record the same totals, so
decoded_bytes + unknown_bytes = len(data). -/
theorem claim_C10_sweep_partition (data : List Nat) (base : Nat)
    (md : Option ModuleMetadata) :
    Disassembler.sumLens (Disassembler.disassemble data base md).instructions +
        Disassembler.sumSizes (Disassembler.disassemble data base md).unknown_regions
      = data.length ∧
    (Disassembler.disassemble data base md).statistics.decoded_bytes +
        (Disassembler.disassemble data base md).statistics.unknown_bytes
      = data.length := by
  have h := sweepGo_partition data data.length 0 base none [] (by omega)
    (fun _ => rfl) (fun s hs => by cases hs)
  simp only [List.length_nil, Nat.sub_zero, Nat.add_zero] at h
  exact ⟨h, h⟩

/-- Folding addition of a pointwise contribution over a list is the initial
value plus the mapped sum. -/
theorem foldl_add_eq_sum (g : Nat → Nat) (l : List Nat) (init : Nat) :
    l.foldl (fun acc a => acc + g a) init = init + (l.map g).sum := by
  induction l generalizing init with
  | nil => simp
  | cons a t ih =>
    simp only [List.foldl_cons, List.map_cons, List.sum_cons]
    rw [ih]
    omega

/-- The mapped sum over a stride-one range is the corresponding Finset
sum. -/
theorem range'_sum_eq (g : Nat → Nat) (s n : Nat) :
    ((List.range' s n).map g).sum = ∑ k ∈ Finset.range n, g (s + k) := by
  induction n generalizing s with
  | zero => simp
  | succ n ih =>
    rw [List.range'_succ s n 1, List.map_cons, List.sum_cons, ih (s + 1),
      Finset.sum_range_succ']
    have harg : ∀ k, g (s + 1 + k) = g (s + (k + 1)) := fun k => by
      have : s + 1 + k = s + (k + 1) := by omega
      rw [this]
    simp only [harg, Nat.add_zero]
    omega

/-- Packing bound: pointwise contributions whose intervals stay inside the
range and do not overlap sum to at most the range size. -/
theorem interval_sum_le (g : Nat → Nat) (s n : Nat)
    (Hin : ∀ k, k < n → s + k + g (s + k) ≤ s + n)
    (Hdis : ∀ k1 k2, k1 < k2 → k2 < n → 0 < g (s + k1) → 0 < g (s + k2) →
      s + k1 + g (s + k1) ≤ s + k2) :
    (∑ k ∈ Finset.range n, g (s + k)) ≤ n := by
  classical
  set T : Nat → Finset Nat := fun k => Finset.Ico (s + k) (s + k + g (s + k)) with hT
  have hcard : ∀ k, (T k).card = g (s + k) := by
    intro k
    simp [hT, Nat.card_Ico]
  have key : ∀ a b, a < b → b < n → Disjoint (T a) (T b) := by
    intro a b hab hbn
    by_cases hga : 0 < g (s + a)
    · by_cases hgb : 0 < g (s + b)
      · have hsep := Hdis a b hab hbn hga hgb
        rw [Finset.disjoint_left]
        intro x hx1 hx2
        rw [hT] at hx1 hx2
        simp only [Finset.mem_Ico] at hx1 hx2
        omega
      · have hz : g (s + b) = 0 := by omega
        simp [hT, hz]
    · have hz : g (s + a) = 0 := by omega
      simp [hT, hz]
  have hdisj : ∀ k1 ∈ Finset.range n, ∀ k2 ∈ Finset.range n, k1 ≠ k2 →
      Disjoint (T k1) (T k2) := by
    intro k1 hk1 k2 hk2 hne
    simp only [Finset.mem_range] at hk1 hk2
    rcases hne.lt_or_lt with hlt | hlt
    · exact key k1 k2 hlt hk2
    · exact (key k2 k1 hlt hk1).symm
  calc (∑ k ∈ Finset.range n, g (s + k))
      = ∑ k ∈ Finset.range n, (T k).card := by simp [hcard]
    _ = ((Finset.range n).biUnion T).card := (Finset.card_biUnion hdisj).symm
    _ ≤ (Finset.Ico s (s + n)).card := by
        apply Finset.card_le_card
        intro x hx
        simp only [Finset.mem_biUnion, Finset.mem_range] at hx
        obtain ⟨k, hk, hxk⟩ := hx
        rw [hT] at hxk
        simp only [Finset.mem_Ico] at hxk
        have := Hin k hk
        simp only [Finset.mem_Ico]
        omega
    _ = n := by simp [Nat.card_Ico]

/-- The stored decode rate of a classified section is the guarded rational
division of the counted bytes by the signed section size. -/
theorem classify_section_decode_rate (s e : Nat) (insts : List Instruction) :
    (RegionClassifier.classify_section s e insts).decode_rate =
      if 0 < (e : Int) - (s : Int) + 1 then
        ((RegionClassifier.section_decoded_bytes s e insts : Nat) : Rat) /
          (((e : Int) - (s : Int) + 1 : Int) : Rat)
      else 0 := rfl

/-- The counted bytes of a section are the Finset sum of the per-address
contributions. -/
theorem section_decoded_bytes_eq_sum (s e : Nat) (insts : List Instruction) :
    RegionClassifier.section_decoded_bytes s e insts =
      ∑ k ∈ Finset.range (e + 1 - s), RegionClassifier.counted_len insts (s + k) := by
  unfold RegionClassifier.section_decoded_bytes
  rw [foldl_add_eq_sum, range'_sum_eq]
  omega

/-- C7, amended.  The computed decode_rate of a classified section is
nonnegative, and is at most 1 provided every counted instruction lies
inside the section and the counted instructions do not overlap.  The
unconditional upper bound the claim states fails: an instruction starting
inside the section whose raw length extends past the inclusive end is
counted in full, which pushes the rate above 1 (see the counterexample). -/
theorem claim_C7_decode_rate_bounds (s e : Nat) (insts : List Instruction) :
    0 ≤ (RegionClassifier.classify_section s e insts).decode_rate ∧
    ((∀ a, s ≤ a → a ≤ e → a + RegionClassifier.counted_len insts a ≤ e + 1) →
     (∀ a b, s ≤ a → a < b → b ≤ e → 0 < RegionClassifier.counted_len insts a →
        0 < RegionClassifier.counted_len insts b →
        a + RegionClassifier.counted_len insts a ≤ b) →
     (RegionClassifier.classify_section s e insts).decode_rate ≤ 1) := by
  constructor
  · rw [classify_section_decode_rate]
    split_ifs with hpos
    · apply div_nonneg
      · exact Nat.cast_nonneg _
      · exact_mod_cast le_of_lt hpos
    · exact le_refl 0
  · intro H1 H2
    rw [classify_section_decode_rate]
    split_ifs with hpos
    · have hse : s ≤ e := by omega
      set n := e + 1 - s with hn
      have hbound : RegionClassifier.section_decoded_bytes s e insts ≤ n := by
        rw [section_decoded_bytes_eq_sum]
        apply interval_sum_le
        · intro k hk
          have := H1 (s + k) (by omega) (by omega)
          omega
        · intro k1 k2 h12 hk2 hg1 hg2
          exact H2 (s + k1) (s + k2) (by omega) (by omega) (by omega) hg1 hg2
      have hden : (((e : Int) - (s : Int) + 1 : Int) : Rat) = (n : Rat) := by
        have : (e : Int) - (s : Int) + 1 = (n : Int) := by omega
        rw [this]
        push_cast
        rfl
      rw [hden, div_le_one (by exact_mod_cast (by omega : 0 < n))]
      exact_mod_cast hbound
    · norm_num

/-- The constant-pool post-pass never changes a stored decode rate. -/
theorem detect_constant_pools_decode_rate (regions : List Region) :
    (RegionClassifier.detect_constant_pools regions).map (fun r => r.decode_rate)
      = regions.map (fun r => r.decode_rate) := by
  unfold RegionClassifier.detect_constant_pools
  rw [List.map_map]
  apply List.map_congr_left
  intro r _
  simp only [Function.comp_apply]
  split_ifs <;> rfl

/-- C7 counterexample.  Classifying the two-byte section [0, 1] against a
stream holding one six-byte MVC at address 0 stores decode_rate 3: the
instruction starts inside the section but its full length is counted, so
the claimed invariant decode_rate within [0, 1] fails on this produced
region. -/
theorem claim_C7_counterexample :
    ((RegionClassifier.classify [(0, 1, [])] mvc_insts).map
      (fun r => r.decode_rate)) = [3] ∧ ¬ ((3 : Rat) ≤ 1) := by
  constructor
  · have hdec : RegionClassifier.section_decoded_bytes 0 1 mvc_insts = 6 := by decide
    have hrate : (RegionClassifier.classify_section 0 1 mvc_insts).decode_rate = 3 := by
      rw [classify_section_decode_rate, if_pos (by norm_num), hdec]
      norm_num
    have hcl : RegionClassifier.classify [(0, 1, [])] mvc_insts
        = RegionClassifier.detect_constant_pools
            [RegionClassifier.classify_section 0 1 mvc_insts] := rfl
    rw [hcl, detect_constant_pools_decode_rate, List.map_cons, List.map_nil, hrate]
  · norm_num

/-- C7 witness: the amended bounds applied to the section [0, 1] over a
single two-byte BALR, which fills the section exactly (rate 1). -/
theorem claim_C7_witness :
    0 ≤ (RegionClassifier.classify_section 0 1 balr_insts).decode_rate ∧
      (RegionClassifier.classify_section 0 1 balr_insts).decode_rate ≤ 1 :=
  ⟨(claim_C7_decode_rate_bounds 0 1 balr_insts).1,
   (claim_C7_decode_rate_bounds 0 1 balr_insts).2
     (by
       intro a h0 h1
       interval_cases a <;> decide)
     (by
       intro a b h0 hab hb1 hga hgb
       have hb : b = 1 := by omega
       subst hb
       have ha : a = 0 := by omega
       subst ha
       exact absurd hgb (by decide))⟩

end ZosReverse
